import Mathlib

/-!
# Verification of `FileSystemCacheMsgspec`
  (src/src/flask_caching/contrib/filesystemcachemsgspec.py)

Shallow embedding of the filesystem cache backend.  The cache directory is
modelled as an association list from filenames to file contents; every
operation of the Python class is translated into a pure function on that
state.  Modelling conventions:

* The constant directory prefix `self._path` (`os.path.join(self._path, hash)`)
  is dropped: all files live in one directory, and `_list_dir` strips the
  prefix again with `split("/")[-1]`, so filenames are modelled as the bare
  basenames.
* The pluggable hash function (`hash_method(key).hexdigest()`, spec §4.1) is a
  parameter `hashName` of the configuration.  The UTF-8 encoding of the key is
  absorbed into it.
* The msgspec/zlib codec is external to the repository (spec §4.3 treats it as
  a pluggable strategy).  It is modelled by `serialize`/`deserialize` over an
  abstract `Bytes` type: a valid encoding of the record `[timeout, value]`, or
  `junk` for corrupt/truncated/incompatibly-compressed content that fails to
  decode.  `Val.bad` stands for a payload msgspec cannot encode, so
  `serialize` fails exactly there, mirroring a `msgspec` encode error.
* OS-level failures (permission, disk full, ...) are injected through an
  environment `Env` of per-filename fault flags; the Python `try/except`
  blocks become case splits on those flags.
* A Python exception that escapes an operation (the caller sees a raise, not a
  return value) is modelled by an `Option`-valued result being `none`.
* Time is a `Nat` of unix seconds, passed explicitly as `now` (Python's
  `time()`); within a single operation all `time()` calls read the same clock.
* Counts are `Int` (Python ints may go negative via `delta=-1` updates).  The
  threshold is a `Nat`: it is an entry-count bound (spec §6: `0` = unbounded).
-/

namespace FsCache

/-- Payload values.  `bad` is a value the serializer cannot encode
(e.g. an arbitrary Python object msgspec rejects). -/
inductive Val where
  | int : Int → Val
  | str : String → Val
  | bad : Val
deriving DecidableEq, Repr

/-- On-disk file contents: either a valid encoding of a record
`[expiry, value]` or bytes that fail to decode. -/
inductive Bytes where
  | junk : Bytes
  | record : Nat → Val → Bytes
deriving DecidableEq, Repr

/-- Model of `_serialize([timeout, value])`: msgpack-encode (and optionally compress)
the two-element record.  Fails exactly on an unencodable payload. -/
def serialize (expiry : Nat) (v : Val) : Option Bytes :=
  match v with
  | Val.bad => none
  | v => some (Bytes.record expiry v)

/-- Model of `_deserialize(data)`: (optionally decompress and) msgpack-decode the
record; corrupt bytes raise, modelled as `none`. -/
def deserialize (b : Bytes) : Option (Nat × Val) :=
  match b with
  | Bytes.junk => none
  | Bytes.record e v => some (e, v)

/-- The cache directory: filenames paired with file contents. -/
abbrev FsDir := List (String × Bytes)

/-- Per-filename fault injection for OS calls; `true` means the call raises.
`readFails` covers `open(fn, "rb")`, `writeFails` covers `open(fn, "wb")` and
the write, `removeFails` covers `os.remove(fn)` on a present file,
`replaceFails` covers `os.replace(_, fn)`, `chmodFails` covers
`os.chmod(fn, _)`. -/
structure Env where
  readFails : String → Bool
  writeFails : String → Bool
  removeFails : String → Bool
  replaceFails : String → Bool
  chmodFails : String → Bool

/-- The fault-free environment. -/
def envOK : Env :=
  ⟨fun _ => false, fun _ => false, fun _ => false, fun _ => false, fun _ => false⟩

/-- Construction-time configuration (spec §6): hashing strategy, eviction
threshold, default TTL.  File mode and compression level carry no claim
content and are omitted. -/
structure Config where
  hashName : String → String
  threshold : Nat
  defaultTimeout : Nat

/-- The reserved sentinel key `_fs_count_file` of the counter entry. -/
def fsCountFile : String := "__wz_cache_count"

/-- The suffix `_fs_transaction_suffix` that `_list_dir` filters out. -/
def fsTransactionSuffix : String := ".__wz_cache"

/-- The suffix `set` actually appends to build its temporary file name
(`tmpname = filename + ".__tmp"`, line 192). -/
def tmpWriteSuffix : String := ".__tmp"

/-- Model of Python's `str.endswith(suffix)`, over the character
lists of the strings. -/
def endsWithStr (s suffix : String) : Bool :=
  suffix.data.isSuffixOf s.data

/-- Model of `_get_filename(key)` (without the constant directory prefix):
the hex digest of the key. -/
def getFilename (cfg : Config) (key : String) : String :=
  cfg.hashName key

/-- The on-disk name of the counter entry: `_get_filename(_fs_count_file)`. -/
def countName (cfg : Config) : String :=
  getFilename cfg fsCountFile

/-- Read a file's bytes, `none` when absent. -/
def readFile : FsDir → String → Option Bytes
  | [], _ => none
  | e :: rest, fn => if e.1 = fn then some e.2 else readFile rest fn

/-- Model of `os.remove`: drop the file. -/
def removeFile : FsDir → String → FsDir
  | [], _ => []
  | e :: rest, fn => if e.1 = fn then removeFile rest fn else e :: removeFile rest fn

/-- Create or overwrite a file with the given bytes. -/
def writeFile (d : FsDir) (fn : String) (b : Bytes) : FsDir :=
  (fn, b) :: removeFile d fn

/-- Model of `_list_dir()`: all directory entries except those ending in
`_fs_transaction_suffix` and the counter's filename. -/
def listDir (cfg : Config) (d : FsDir) : List String :=
  (d.map (fun e => e.1)).filter
    (fun fn => !endsWithStr fn fsTransactionSuffix && fn != countName cfg)

/-- Model of `open(fn, "rb")` followed by `_deserialize`: `none` when the file is
absent, the read raises, or the bytes fail to decode (all call sites treat
the three cases alike). -/
def getPure (env : Env) (d : FsDir) (fn : String) : Option (Nat × Val) :=
  if env.readFails fn then none
  else (readFile d fn).bind deserialize

/-- Modelled from the spec: `BaseCache._normalize_timeout` from
`flask_caching.backends.base`, which is not under `src/`.  Spec §4.6/§6:
a missing timeout argument falls back to the configured default TTL. -/
def baseNormalizeTimeout (cfg : Config) (timeout : Option Nat) : Nat :=
  timeout.getD cfg.defaultTimeout

/-- Model of `_normalize_timeout` (lines 95-99): resolve the default, then turn a
nonzero relative timeout into an absolute expiry `time() + timeout`;
`0` stays `0` ("never expires"). -/
def normalizeTimeout (cfg : Config) (now : Nat) (timeout : Option Nat) : Nat :=
  let t := baseNormalizeTimeout cfg timeout
  if t ≠ 0 then now + t else t

/-- The body of `set`'s `try` block (lines 195-205): write the record to the
sibling temp file, pre-remove an existing target, `os.replace` the temp onto
the target, `os.chmod`.  Returns (returned-true?, `is_new_file`, directory).
Any OS failure is caught by `set`'s `except` and surfaces as `false`. -/
def setWrite (env : Env) (d : FsDir) (filename : String) (data : Bytes) :
    Bool × Bool × FsDir :=
  let tmpname := filename ++ tmpWriteSuffix
  if env.writeFails tmpname then (false, false, d)
  else
    let d1 := writeFile d tmpname data
    let isNew := (readFile d1 filename).isNone
    if ¬ isNew ∧ env.removeFails filename then (false, isNew, d1)
    else
      let d2 := if isNew then d1 else removeFile d1 filename
      if env.replaceFails filename then (false, isNew, d2)
      else
        let d3 := writeFile (removeFile d2 tmpname) filename data
        if env.chmodFails filename then (false, isNew, d3)
        else (true, isNew, d3)

/-- Model of `set(_fs_count_file, n, mgmt_element=True)` as invoked by
`_update_count`: the management branch of `set` forces `timeout = 0`
(line 186), skips `_prune`, serializes `[0, n]` (an int always encodes),
runs the write block, and skips the count update (line 210). -/
def setCount (cfg : Config) (env : Env) (d : FsDir) (n : Int) : Bool × FsDir :=
  let r := setWrite env d (countName cfg) (Bytes.record 0 (Val.int n))
  (r.1, r.2.2)

/-- Python's `x or 0` applied to the result value of `self.get(...)`, as used
in an arithmetic/comparison context by `_file_count` consumers: a falsy value
(`None` handled by the caller, `0`, `""`) reads as `0`; a non-`int` truthy
value would raise a `TypeError` at the use site, modelled as `none`. -/
def countOfGet : Option Val → Option Int
  | none => some 0
  | some (Val.int n) => some n
  | some (Val.str s) => if s = "" then some 0 else none
  | some Val.bad => none

/-- Model of `self._file_count` (lines 82-84): `self.get(self._fs_count_file) or 0`.
Returns the count and the (possibly mutated) directory, or `none` when using
the value would raise.  The `get` is inlined: when the stored counter record
has a nonzero, passed expiry, `get` deletes the file and — through
`delete` → `_update_count(delta=-1)` → `_file_count` — re-reads the now
absent counter (yielding 0) and rewrites it as `-1`. -/
def fileCountRaw (cfg : Config) (env : Env) (now : Nat) (d : FsDir) :
    Option (Int × FsDir) :=
  match getPure env d (countName cfg) with
  | none => some (0, d)
  | some (e, v) =>
    if e ≠ 0 ∧ e < now then
      -- get's expiry branch: `self.delete(self._fs_count_file)`
      if (readFile d (countName cfg)).isNone then some (0, d)
      else if env.removeFails (countName cfg) then some (0, d)
      else
        let d1 := removeFile d (countName cfg)
        let d2 :=
          if cfg.threshold = 0 then d1
          else
            -- inner `_file_count` re-read of the just-removed counter
            match countOfGet ((getPure env d1 (countName cfg)).map
                (fun r => r.2)) with
            | some c => (setCount cfg env d1 (c - 1)).2
            | none => d1
        some (0, d2)
    else (countOfGet (some v)).map (fun c => (c, d))

/-- Model of `_update_count(delta=δ)` (lines 86-93): no-op when the threshold is 0;
otherwise read-modify-write the counter.  `none` models the `TypeError`
raised by `_file_count + delta` on a non-integer stored counter. -/
def updateCountDelta (cfg : Config) (env : Env) (now : Nat) (d : FsDir)
    (delta : Int) : Option FsDir :=
  if cfg.threshold = 0 then some d
  else if delta ≠ 0 then
    match fileCountRaw cfg env now d with
    | none => none
    | some (c, d1) => some (setCount cfg env d1 (c + delta)).2
  else some (setCount cfg env d 0).2

/-- Model of `_update_count(value=v)` (lines 86-93): absolute overwrite of the
counter; no-op when the threshold is 0. -/
def updateCountValue (cfg : Config) (env : Env) (d : FsDir) (v : Int) : FsDir :=
  if cfg.threshold = 0 then d else (setCount cfg env d v).2

/-- Model of `delete(key, mgmt_element=False)` (lines 220-230): remove the backing
file, then decrement the counter; `FileNotFoundError` and any other failure
(including a `TypeError` from the count update) are caught and yield
`false`. -/
def deleteOp (cfg : Config) (env : Env) (now : Nat) (d : FsDir) (key : String) :
    Bool × FsDir :=
  let fn := getFilename cfg key
  if (readFile d fn).isNone then (false, d)
  else if env.removeFails fn then (false, d)
  else
    let d1 := removeFile d fn
    match updateCountDelta cfg env now d1 (-1) with
    | none => (false, d1)
    | some d2 => (true, d2)

/-- Model of `get(key)` (lines 169-182): read and decode the backing file; on a
nonzero, passed expiry delete it (via `delete`) and return nothing; absence,
read failures and decode failures all surface as "no value". -/
def getOp (cfg : Config) (env : Env) (now : Nat) (d : FsDir) (key : String) :
    Option Val × FsDir :=
  let fn := getFilename cfg key
  match getPure env d fn with
  | none => (none, d)
  | some (e, v) =>
    if e ≠ 0 ∧ e < now then (none, (deleteOp cfg env now d key).2)
    else (some v, d)

/-- The removal predicate of `_prune`'s loop body (line 150) together with
its `try/except`: an unreadable or undecodable entry is skipped. -/
def shouldRemove (record : Option (Nat × Val)) (idx now : Nat) : Bool :=
  match record with
  | none => false
  | some (e, _) => decide ((e ≠ 0 ∧ e ≤ now) ∨ idx % 3 = 0)

/-- The `for idx, fname in enumerate(entries)` loop of `_prune`
(lines 146-155): per-entry, decode the record, remove the file when the
stored expiry is nonzero and passed or the position index is a multiple
of 3; any per-entry failure is swallowed and the sweep continues. -/
def pruneSweep (env : Env) (now : Nat) : FsDir → List String → Nat → FsDir
  | d, [], _ => d
  | d, fn :: rest, idx =>
    let d1 :=
      if shouldRemove (getPure env d fn) idx now then
        if env.removeFails fn then d else removeFile d fn
      else d
    pruneSweep env now d1 rest (idx + 1)

/-- Model of `_prune()` (lines 140-157): return immediately when the threshold is 0 or
the approximate count does not exceed it; otherwise sweep the listing and
recompute the counter from a fresh directory scan.  `none` models the
`TypeError` raised by comparing a non-integer counter to the threshold. -/
def prune (cfg : Config) (env : Env) (now : Nat) (d : FsDir) : Option FsDir :=
  if cfg.threshold = 0 then some d
  else
    match fileCountRaw cfg env now d with
    | none => none
    | some (c, d1) =>
      if ¬ c > (cfg.threshold : Int) then some d1
      else
        let entries := listDir cfg d1
        let d2 := pruneSweep env now d1 entries 0
        some (updateCountValue cfg env d2 ((listDir cfg d2).length : Int))

/-- Model of `set(key, value, timeout, mgmt_element)` (lines 184-212).  The first
component is `none` when the call raises to the caller: `_prune`'s counter
comparison (line 141), `_serialize` (line 193) and the success-path
`_update_count` (line 211) all run outside the `try` block. -/
def setOp (cfg : Config) (env : Env) (now : Nat) (d : FsDir) (key : String)
    (value : Val) (timeout : Option Nat) (mgmt : Bool) : Option Bool × FsDir :=
  match (if mgmt then some d else prune cfg env now d) with
  | none => (none, d)
  | some d0 =>
    let t := normalizeTimeout cfg now (if mgmt then some 0 else timeout)
    let filename := getFilename cfg key
    match serialize t value with
    | none => (none, d0)
    | some data =>
      match setWrite env d0 filename data with
      | (false, _, d1) => (some false, d1)
      | (true, isNew, d1) =>
        if ¬ mgmt ∧ isNew then
          match updateCountDelta cfg env now d1 1 with
          | none => (none, d1)
          | some d2 => (some true, d2)
        else (some true, d1)

/-- Model of `add(key, value, timeout)` (lines 214-218): set only when no file exists
for the key's filename. -/
def addOp (cfg : Config) (env : Env) (now : Nat) (d : FsDir) (key : String)
    (value : Val) (timeout : Option Nat) : Option Bool × FsDir :=
  if (readFile d (getFilename cfg key)).isSome then (some false, d)
  else setOp cfg env now d key value timeout false

/-- The removal loop of `clear` (lines 160-165): remove listed files until
one removal raises (`FileNotFoundError` is an `OSError` and also aborts). -/
def clearLoop (env : Env) : FsDir → List String → Bool × FsDir
  | d, [] => (true, d)
  | d, fn :: rest =>
    if (readFile d fn).isNone then (false, d)
    else if env.removeFails fn then (false, d)
    else clearLoop env (removeFile d fn) rest

/-- Model of `clear()` (lines 159-167): remove every listed entry; on full success
reset the counter to 0 and return `true`, on a failed removal stop, recompute
the counter from a fresh listing and return `false`. -/
def clearOp (cfg : Config) (env : Env) (d : FsDir) : Bool × FsDir :=
  match clearLoop env d (listDir cfg d) with
  | (true, d1) => (true, updateCountValue cfg env d1 0)
  | (false, d1) =>
    (false, updateCountValue cfg env d1 ((listDir cfg d1).length : Int))

/-- The successive directory states visible to a concurrent reader during
`set`'s fault-free write sequence (lines 196-205): initial; temp file
partially written; temp file complete; (when the target pre-exists) target
pre-removed; temp renamed onto the target. -/
def setWriteStates (d : FsDir) (filename : String) (data : Bytes) :
    List FsDir :=
  let tmpname := filename ++ tmpWriteSuffix
  let d1 := writeFile d tmpname Bytes.junk
  let d2 := writeFile d tmpname data
  if (readFile d2 filename).isNone then
    [d, d1, d2, writeFile (removeFile d2 tmpname) filename data]
  else
    let d3 := removeFile d2 filename
    [d, d1, d2, d3, writeFile (removeFile d3 tmpname) filename data]

/-! ## Basic lemmas about the filesystem primitives -/

theorem readFile_writeFile_self (d : FsDir) (fn : String) (b : Bytes) :
    readFile (writeFile d fn b) fn = some b := by
  simp [readFile, writeFile]

theorem readFile_removeFile_ne (d : FsDir) (fn g : String) (h : g ≠ fn) :
    readFile (removeFile d fn) g = readFile d g := by
  induction d with
  | nil => rfl
  | cons a tl ih =>
    by_cases ha : a.1 = fn
    · rw [show removeFile (a :: tl) fn = removeFile tl fn by simp [removeFile, ha], ih,
        show readFile (a :: tl) g = readFile tl g by
          simp [readFile, show ¬ a.1 = g from fun hh => h (by rw [← hh]; exact ha)]]
    · rw [show removeFile (a :: tl) fn = a :: removeFile tl fn by simp [removeFile, ha]]
      by_cases hg : a.1 = g
      · simp [readFile, hg]
      · simp [readFile, hg, ih]

theorem readFile_removeFile_self (d : FsDir) (fn : String) :
    readFile (removeFile d fn) fn = none := by
  induction d with
  | nil => rfl
  | cons a tl ih =>
    by_cases ha : a.1 = fn
    · simpa [removeFile, ha] using ih
    · rw [show removeFile (a :: tl) fn = a :: removeFile tl fn by simp [removeFile, ha]]
      simpa [readFile, ha] using ih

theorem readFile_writeFile_ne (d : FsDir) (fn g : String) (b : Bytes) (h : g ≠ fn) :
    readFile (writeFile d fn b) g = readFile d g := by
  show (if fn = g then some b else readFile (removeFile d fn) g) = readFile d g
  rw [if_neg (fun hh => h hh.symm), readFile_removeFile_ne d fn g h]

theorem removeFile_of_absent (d : FsDir) (fn : String) (h : readFile d fn = none) :
    removeFile d fn = d := by
  induction d with
  | nil => rfl
  | cons a tl ih =>
    by_cases ha : a.1 = fn
    · simp [readFile, ha] at h
    · rw [show readFile (a :: tl) fn = readFile tl fn by simp [readFile, ha]] at h
      simp [removeFile, ha, ih h]

theorem readFile_eq_none_iff (d : FsDir) (fn : String) :
    readFile d fn = none ↔ fn ∉ d.map (fun e => e.1) := by
  induction d with
  | nil => simp [readFile]
  | cons a tl ih =>
    by_cases ha : a.1 = fn
    · simp [readFile, ha]
    · simp [readFile, ha, ih, show ¬ fn = a.1 from fun hh => ha hh.symm]

theorem getPure_congr (env : Env) (d1 d2 : FsDir) (g : String)
    (h : readFile d1 g = readFile d2 g) : getPure env d1 g = getPure env d2 g := by
  simp [getPure, h]

theorem str_append_ne (s t : String) (ht : t.length ≠ 0) : s ++ t ≠ s := by
  intro h
  have hl := congrArg String.length h
  rw [String.length_append] at hl
  omega

theorem tmp_ne_self (s : String) : s ++ tmpWriteSuffix ≠ s :=
  str_append_ne s tmpWriteSuffix (by decide)

/-- All OS calls of `set`'s write block on target `fn` succeed. -/
def writePathOK (env : Env) (fn : String) : Prop :=
  env.writeFails (fn ++ tmpWriteSuffix) = false ∧ env.removeFails fn = false ∧
  env.replaceFails fn = false ∧ env.chmodFails fn = false

theorem setWrite_readFile_other (env : Env) (d : FsDir) (fn : String)
    (data : Bytes) (g : String) (hg : g ≠ fn) (hgt : g ≠ fn ++ tmpWriteSuffix) :
    readFile (setWrite env d fn data).2.2 g = readFile d g := by
  have h1 : ∀ dd b, readFile (writeFile dd (fn ++ tmpWriteSuffix) b) g = readFile dd g :=
    fun dd b => readFile_writeFile_ne _ _ _ _ hgt
  have h2 : ∀ dd, readFile (removeFile dd fn) g = readFile dd g :=
    fun dd => readFile_removeFile_ne _ _ _ hg
  have h3 : ∀ dd, readFile (removeFile dd (fn ++ tmpWriteSuffix)) g = readFile dd g :=
    fun dd => readFile_removeFile_ne _ _ _ hgt
  have h4 : ∀ dd b, readFile (writeFile dd fn b) g = readFile dd g :=
    fun dd b => readFile_writeFile_ne _ _ _ _ hg
  simp only [setWrite]
  split
  · rfl
  · split
    · exact h1 _ _
    · split
      · split
        · rw [h1]
        · rw [h2, h1]
      · split
        · split
          · rw [h4, h3, h1]
          · rw [h4, h3, h2, h1]
        · split
          · rw [h4, h3, h1]
          · rw [h4, h3, h2, h1]

theorem setWrite_ok (env : Env) (d : FsDir) (fn : String) (data : Bytes)
    (h : writePathOK env fn) :
    setWrite env d fn data =
      (true, (readFile d fn).isNone,
        writeFile (removeFile (removeFile (writeFile d (fn ++ tmpWriteSuffix) data) fn)
          (fn ++ tmpWriteSuffix)) fn data) := by
  obtain ⟨hw, hr, hp, hc⟩ := h
  have hfn : readFile (writeFile d (fn ++ tmpWriteSuffix) data) fn = readFile d fn :=
    readFile_writeFile_ne _ _ _ _ (Ne.symm (tmp_ne_self fn))
  simp only [setWrite, hw, hr, hp, hc, Bool.false_eq_true, if_false, and_false,
    not_false_eq_true, hfn]
  by_cases hnew : readFile d fn = none
  · rw [if_pos (by simp [hnew]),
      removeFile_of_absent (writeFile d (fn ++ tmpWriteSuffix) data) fn
        (by rw [hfn]; exact hnew)]
  · rw [if_neg (by simpa [Option.isNone_iff_eq_none] using hnew)]

theorem setCount_readFile_self (cfg : Config) (env : Env) (d : FsDir) (n : Int)
    (h : writePathOK env (countName cfg)) :
    readFile (setCount cfg env d n).2 (countName cfg) =
      some (Bytes.record 0 (Val.int n)) := by
  simp only [setCount, setWrite_ok _ _ _ _ h]
  exact readFile_writeFile_self _ _ _

theorem setCount_fst (cfg : Config) (env : Env) (d : FsDir) (n : Int)
    (h : writePathOK env (countName cfg)) :
    (setCount cfg env d n).1 = true := by
  simp only [setCount, setWrite_ok _ _ _ _ h]

theorem setCount_readFile_other (cfg : Config) (env : Env) (d : FsDir) (n : Int)
    (g : String) (hg : g ≠ countName cfg) (hgt : g ≠ countName cfg ++ tmpWriteSuffix) :
    readFile (setCount cfg env d n).2 g = readFile d g :=
  setWrite_readFile_other env d (countName cfg) _ g hg hgt

/-- Any record stored at the counter filename holds an integer payload.
This is an invariant of every state the management machinery itself
produces; a non-integer counter makes the bookkeeping raise `TypeError`. -/
def counterIntOK (cfg : Config) (env : Env) (d : FsDir) : Prop :=
  ∀ e v, getPure env d (countName cfg) = some (e, v) → ∃ n, v = Val.int n

theorem counterIntOK_of_absent (cfg : Config) (env : Env) (d : FsDir)
    (h : readFile d (countName cfg) = none) : counterIntOK cfg env d := by
  intro e v hg
  simp [getPure, h] at hg

theorem counterIntOK_of_int (cfg : Config) (env : Env) (d : FsDir) (e0 : Nat) (n : Int)
    (h : readFile d (countName cfg) = some (Bytes.record e0 (Val.int n))) :
    counterIntOK cfg env d := by
  intro e v hg
  simp only [getPure, h] at hg
  split at hg
  · cases hg
  · simp [deserialize] at hg
    exact ⟨n, hg.2.symm⟩

theorem counterIntOK_congr (cfg : Config) (env : Env) (d1 d2 : FsDir)
    (h : readFile d1 (countName cfg) = readFile d2 (countName cfg))
    (h2 : counterIntOK cfg env d2) : counterIntOK cfg env d1 := by
  intro e v hg
  exact h2 e v (by rw [← getPure_congr env d1 d2 _ h]; exact hg)

theorem setCount_counter_cases (cfg : Config) (env : Env) (d : FsDir) (n : Int) :
    readFile (setCount cfg env d n).2 (countName cfg) = readFile d (countName cfg) ∨
    readFile (setCount cfg env d n).2 (countName cfg) = none ∨
    readFile (setCount cfg env d n).2 (countName cfg) =
      some (Bytes.record 0 (Val.int n)) := by
  have hne : countName cfg ≠ countName cfg ++ tmpWriteSuffix :=
    Ne.symm (tmp_ne_self _)
  simp only [setCount, setWrite]
  split
  · exact Or.inl rfl
  · split
    · exact Or.inl (readFile_writeFile_ne _ _ _ _ hne)
    · split
      · split
        · exact Or.inl (readFile_writeFile_ne _ _ _ _ hne)
        · exact Or.inr (Or.inl (by
            rw [readFile_removeFile_self]))
      · split
        · exact Or.inr (Or.inr (readFile_writeFile_self _ _ _))
        · exact Or.inr (Or.inr (readFile_writeFile_self _ _ _))

theorem setCount_counterIntOK (cfg : Config) (env : Env) (d : FsDir) (n : Int)
    (h : counterIntOK cfg env d) : counterIntOK cfg env (setCount cfg env d n).2 := by
  rcases setCount_counter_cases cfg env d n with hc | hc | hc
  · exact counterIntOK_congr _ _ _ _ hc h
  · exact counterIntOK_of_absent _ _ _ hc
  · exact counterIntOK_of_int _ _ _ 0 n hc



theorem fileCountRaw_of_counter_zero (cfg : Config) (env : Env) (now : Nat)
    (d : FsDir) (n : Int)
    (h : getPure env d (countName cfg) = some (0, Val.int n)) :
    fileCountRaw cfg env now d = some (n, d) := by
  simp [fileCountRaw, h, countOfGet]

theorem fileCountRaw_of_absent (cfg : Config) (env : Env) (now : Nat) (d : FsDir)
    (h : getPure env d (countName cfg) = none) :
    fileCountRaw cfg env now d = some (0, d) := by
  simp [fileCountRaw, h]

theorem fileCountRaw_isSome (cfg : Config) (env : Env) (now : Nat) (d : FsDir)
    (h : counterIntOK cfg env d) : (fileCountRaw cfg env now d).isSome := by
  unfold fileCountRaw
  cases hg : getPure env d (countName cfg) with
  | none => simp
  | some p =>
    obtain ⟨e, v⟩ := p
    obtain ⟨n, rfl⟩ := h e v hg
    dsimp only
    by_cases hexp : e ≠ 0 ∧ e < now
    · rw [if_pos hexp]
      split
      · simp
      · split <;> simp
    · rw [if_neg hexp]
      simp [countOfGet]

theorem fileCountRaw_readFile_other (cfg : Config) (env : Env) (now : Nat)
    (d : FsDir) (g : String) (hg : g ≠ countName cfg)
    (hgt : g ≠ countName cfg ++ tmpWriteSuffix) (c : Int) (d' : FsDir)
    (h : fileCountRaw cfg env now d = some (c, d')) : readFile d' g = readFile d g := by
  have hrm : readFile (removeFile d (countName cfg)) g = readFile d g :=
    readFile_removeFile_ne _ _ _ hg
  unfold fileCountRaw at h
  cases hgp : getPure env d (countName cfg) with
  | none =>
    rw [hgp] at h
    dsimp only at h
    simp only [Option.some.injEq, Prod.mk.injEq] at h
    rw [← h.2]
  | some p =>
    obtain ⟨e, v⟩ := p
    rw [hgp] at h
    dsimp only at h
    by_cases hexp : e ≠ 0 ∧ e < now
    · rw [if_pos hexp] at h
      split at h
      · simp only [Option.some.injEq, Prod.mk.injEq] at h
        rw [← h.2]
      · split at h
        · simp only [Option.some.injEq, Prod.mk.injEq] at h
          rw [← h.2]
        · simp only [Option.some.injEq, Prod.mk.injEq] at h
          rw [← h.2]
          split
          · exact hrm
          · split
            · rw [setCount_readFile_other cfg env _ _ g hg hgt]
              exact hrm
            · exact hrm
    · rw [if_neg hexp] at h
      cases hcv : countOfGet (some v) with
      | none => rw [hcv] at h; simp at h
      | some cc =>
        rw [hcv] at h
        simp only [Option.map_some', Option.some.injEq, Prod.mk.injEq] at h
        rw [← h.2]

theorem fileCountRaw_counterIntOK (cfg : Config) (env : Env) (now : Nat)
    (d : FsDir) (c : Int) (d' : FsDir) (hok : counterIntOK cfg env d)
    (h : fileCountRaw cfg env now d = some (c, d')) : counterIntOK cfg env d' := by
  unfold fileCountRaw at h
  cases hgp : getPure env d (countName cfg) with
  | none =>
    rw [hgp] at h
    dsimp only at h
    simp only [Option.some.injEq, Prod.mk.injEq] at h
    rw [← h.2]; exact hok
  | some p =>
    obtain ⟨e, v⟩ := p
    rw [hgp] at h
    dsimp only at h
    by_cases hexp : e ≠ 0 ∧ e < now
    · rw [if_pos hexp] at h
      have habs : counterIntOK cfg env (removeFile d (countName cfg)) :=
        counterIntOK_of_absent _ _ _ (readFile_removeFile_self _ _)
      split at h
      · simp only [Option.some.injEq, Prod.mk.injEq] at h
        rw [← h.2]; exact hok
      · split at h
        · simp only [Option.some.injEq, Prod.mk.injEq] at h
          rw [← h.2]; exact hok
        · simp only [Option.some.injEq, Prod.mk.injEq] at h
          rw [← h.2]
          split
          · exact habs
          · split
            · exact setCount_counterIntOK _ _ _ _ habs
            · exact habs
    · rw [if_neg hexp] at h
      cases hcv : countOfGet (some v) with
      | none => rw [hcv] at h; simp at h
      | some cc =>
        rw [hcv] at h
        simp only [Option.map_some', Option.some.injEq, Prod.mk.injEq] at h
        rw [← h.2]; exact hok

theorem updateCountDelta_readFile_other (cfg : Config) (env : Env) (now : Nat)
    (d : FsDir) (delta : Int) (g : String) (hg : g ≠ countName cfg)
    (hgt : g ≠ countName cfg ++ tmpWriteSuffix) (d' : FsDir)
    (h : updateCountDelta cfg env now d delta = some d') :
    readFile d' g = readFile d g := by
  unfold updateCountDelta at h
  split at h
  · simp only [Option.some.injEq] at h; rw [← h]
  · split at h
    · cases hfc : fileCountRaw cfg env now d with
      | none => rw [hfc] at h; cases h
      | some p =>
        obtain ⟨c, d1⟩ := p
        rw [hfc] at h
        simp only [Option.some.injEq] at h
        rw [← h, setCount_readFile_other cfg env _ _ g hg hgt]
        exact fileCountRaw_readFile_other cfg env now d g hg hgt c d1 hfc
    · simp only [Option.some.injEq] at h
      rw [← h, setCount_readFile_other cfg env _ _ g hg hgt]

theorem updateCountDelta_isSome (cfg : Config) (env : Env) (now : Nat)
    (d : FsDir) (delta : Int) (hok : counterIntOK cfg env d) :
    (updateCountDelta cfg env now d delta).isSome := by
  unfold updateCountDelta
  split
  · simp
  · split
    · cases hfc : fileCountRaw cfg env now d with
      | none =>
        exfalso
        have := fileCountRaw_isSome cfg env now d hok
        rw [hfc] at this
        cases this
      | some p => simp
    · simp

theorem updateCountValue_readFile_other (cfg : Config) (env : Env) (d : FsDir)
    (v : Int) (g : String) (hg : g ≠ countName cfg)
    (hgt : g ≠ countName cfg ++ tmpWriteSuffix) :
    readFile (updateCountValue cfg env d v) g = readFile d g := by
  unfold updateCountValue
  split
  · rfl
  · exact setCount_readFile_other cfg env _ _ g hg hgt

theorem updateCountValue_counter (cfg : Config) (env : Env) (d : FsDir) (v : Int)
    (h0 : cfg.threshold ≠ 0) (hok : writePathOK env (countName cfg)) :
    readFile (updateCountValue cfg env d v) (countName cfg) =
      some (Bytes.record 0 (Val.int v)) := by
  unfold updateCountValue
  rw [if_neg h0]
  exact setCount_readFile_self cfg env d v hok

theorem listDir_sub (cfg : Config) (d : FsDir) (fn : String)
    (h : fn ∈ listDir cfg d) : fn ∈ d.map (fun e => e.1) :=
  List.mem_of_mem_filter h

theorem countName_notMem_listDir (cfg : Config) (d : FsDir) :
    countName cfg ∉ listDir cfg d := by
  intro h
  have := List.of_mem_filter h
  simp [bne_self_eq_false] at this

theorem mem_listDir_ne_countName (cfg : Config) (d : FsDir) (fn : String)
    (h : fn ∈ listDir cfg d) : fn ≠ countName cfg := by
  intro hh
  exact countName_notMem_listDir cfg d (hh ▸ h)

theorem readFile_isSome_of_mem_listDir (cfg : Config) (d : FsDir) (fn : String)
    (h : fn ∈ listDir cfg d) : readFile d fn ≠ none := by
  intro hn
  exact (readFile_eq_none_iff d fn).mp hn (listDir_sub cfg d fn h)

theorem mem_listDir_of (cfg : Config) (d : FsDir) (fn : String)
    (h1 : fn ∈ d.map (fun e => e.1))
    (h2 : endsWithStr fn fsTransactionSuffix = false) (h3 : fn ≠ countName cfg) :
    fn ∈ listDir cfg d := by
  refine List.mem_filter.mpr ⟨h1, ?_⟩
  simp [h2, bne_iff_ne, h3]

theorem pruneSweep_readFile_notMem (env : Env) (now : Nat) (d : FsDir)
    (names : List String) (i : Nat) (g : String) (h : g ∉ names) :
    readFile (pruneSweep env now d names i) g = readFile d g := by
  induction names generalizing d i with
  | nil => rfl
  | cons fn rest ih =>
    have hg : g ≠ fn := fun hh => h (hh ▸ List.mem_cons_self fn rest)
    have hrest : g ∉ rest := fun hh => h (List.mem_cons_of_mem fn hh)
    show readFile (pruneSweep env now _ rest (i + 1)) g = readFile d g
    rw [ih _ _ hrest]
    split
    · split
      · rfl
      · exact readFile_removeFile_ne d fn g hg
    · rfl

theorem pruneSweep_spec (env : Env) (now : Nat) (d : FsDir)
    (names : List String) (i : Nat) (hnd : names.Nodup)
    (j : Nat) (hj : j < names.length) :
    readFile (pruneSweep env now d names i) (names.get ⟨j, hj⟩) =
      if shouldRemove (getPure env d (names.get ⟨j, hj⟩)) (i + j) now ∧
          env.removeFails (names.get ⟨j, hj⟩) = false then none
      else readFile d (names.get ⟨j, hj⟩) := by
  induction names generalizing d i j with
  | nil => cases hj
  | cons fn rest ih =>
    obtain ⟨hfn, hndr⟩ := List.nodup_cons.mp hnd
    cases j with
    | zero =>
      show readFile (pruneSweep env now _ rest (i + 1)) fn = _
      rw [pruneSweep_readFile_notMem env now _ rest (i + 1) fn hfn]
      simp only [List.get, Nat.add_zero]
      by_cases hsr : shouldRemove (getPure env d fn) i now = true
      · by_cases hrf : env.removeFails fn = true
        · simp [hsr, hrf]
        · simp only [Bool.not_eq_true] at hrf
          simp [hsr, hrf, readFile_removeFile_self]
      · simp only [Bool.not_eq_true] at hsr
        simp [hsr]
    | succ j' =>
      have hj' : j' < rest.length := Nat.lt_of_succ_lt_succ hj
      have hne : rest.get ⟨j', hj'⟩ ≠ fn := by
        intro hh
        exact hfn (hh ▸ rest.get_mem j' hj')
      show readFile (pruneSweep env now _ rest (i + 1)) (rest.get ⟨j', hj'⟩) = _
      have hd1 : ∀ d1 : FsDir, readFile d1 (rest.get ⟨j', hj'⟩) =
          readFile d (rest.get ⟨j', hj'⟩) →
          readFile (pruneSweep env now d1 rest (i + 1)) (rest.get ⟨j', hj'⟩) =
          if shouldRemove (getPure env d (rest.get ⟨j', hj'⟩)) (i + (j' + 1)) now ∧
              env.removeFails (rest.get ⟨j', hj'⟩) = false then none
          else readFile d (rest.get ⟨j', hj'⟩) := by
        intro d1 hread
        rw [ih d1 (i + 1) hndr j' hj']
        rw [getPure_congr env d1 d _ hread, hread]
        have : i + 1 + j' = i + (j' + 1) := by omega
        rw [this]
      apply hd1
      split
      · split
        · rfl
        · exact readFile_removeFile_ne d fn _ hne
      · rfl

theorem serialize_some (t : Nat) (v : Val) (b : Bytes)
    (h : serialize t v = some b) : b = Bytes.record t v := by
  cases v <;> simp [serialize] at h <;> simp [h.symm]


theorem serialize_of_ne_bad (t : Nat) (v : Val) (h : v ≠ Val.bad) :
    serialize t v = some (Bytes.record t v) := by
  cases v <;> simp [serialize] <;> exact h rfl

theorem prune_isSome (cfg : Config) (env : Env) (now : Nat) (d : FsDir)
    (hok : counterIntOK cfg env d) : (prune cfg env now d).isSome := by
  unfold prune
  split
  · simp
  · cases hfc : fileCountRaw cfg env now d with
    | none =>
      exfalso
      have := fileCountRaw_isSome cfg env now d hok
      rw [hfc] at this
      cases this
    | some p =>
      obtain ⟨c, d1⟩ := p
      dsimp only
      split <;> simp

theorem prune_counterIntOK (cfg : Config) (env : Env) (now : Nat) (d : FsDir)
    (d' : FsDir) (hok : counterIntOK cfg env d) (h : prune cfg env now d = some d') :
    counterIntOK cfg env d' := by
  unfold prune at h
  split at h
  · simp only [Option.some.injEq] at h; rw [← h]; exact hok
  · cases hfc : fileCountRaw cfg env now d with
    | none => rw [hfc] at h; cases h
    | some p =>
      obtain ⟨c, d1⟩ := p
      rw [hfc] at h
      have hok1 : counterIntOK cfg env d1 :=
        fileCountRaw_counterIntOK cfg env now d c d1 hok hfc
      dsimp only at h
      split at h
      · simp only [Option.some.injEq] at h; rw [← h]; exact hok1
      · simp only [Option.some.injEq] at h
        rw [← h]
        have hsw : counterIntOK cfg env
            (pruneSweep env now d1 (listDir cfg d1) 0) :=
          counterIntOK_congr _ _ _ _
            (pruneSweep_readFile_notMem env now d1 (listDir cfg d1) 0 _
              (countName_notMem_listDir cfg d1)) hok1
        unfold updateCountValue
        split
        · exact hsw
        · exact setCount_counterIntOK _ _ _ _ hsw

theorem setWrite_true_readFile (env : Env) (d : FsDir) (fn : String) (data : Bytes)
    (h : (setWrite env d fn data).1 = true) :
    readFile (setWrite env d fn data).2.2 fn = some data := by
  simp only [setWrite] at h ⊢
  by_cases h1 : env.writeFails (fn ++ tmpWriteSuffix) = true
  · rw [if_pos h1] at h; cases h
  · rw [if_neg h1] at h ⊢
    by_cases h2 : ¬ (readFile (writeFile d (fn ++ tmpWriteSuffix) data) fn).isNone =
        true ∧ env.removeFails fn = true
    · rw [if_pos h2] at h; cases h
    · rw [if_neg h2] at h ⊢
      by_cases h3 : env.replaceFails fn = true
      · rw [if_pos h3] at h; cases h
      · rw [if_neg h3] at h ⊢
        by_cases h4 : env.chmodFails fn = true
        · rw [if_pos h4] at h; cases h
        · rw [if_neg h4]
          exact readFile_writeFile_self _ _ _

theorem getPure_some_readFile (env : Env) (d : FsDir) (fn : String)
    (p : Nat × Val) (h : getPure env d fn = some p) :
    readFile d fn ≠ none := by
  intro hn
  simp [getPure, hn] at h

/-- After a successful (non-management) `set`, the key's backing file holds
the encoded record, provided the key's filename does not collide with the
counter's filename or its temp sibling. -/
theorem setOp_success_readFile (cfg : Config) (env : Env) (now : Nat) (d : FsDir)
    (key : String) (v : Val) (timeout : Option Nat)
    (hne : getFilename cfg key ≠ countName cfg)
    (hnet : getFilename cfg key ≠ countName cfg ++ tmpWriteSuffix)
    (hok : (setOp cfg env now d key v timeout false).1 = some true) :
    readFile (setOp cfg env now d key v timeout false).2 (getFilename cfg key) =
      some (Bytes.record (normalizeTimeout cfg now timeout) v) := by
  unfold setOp at hok ⊢
  simp only [if_neg (by simp : ¬ false = true)] at hok ⊢
  set pr := prune cfg env now d with hpr
  clear_value pr
  cases pr with
  | none => simp at hok
  | some d0 =>
    dsimp only at hok ⊢
    set sr := serialize (normalizeTimeout cfg now timeout) v with hs
    clear_value sr
    cases sr with
    | none => simp at hok
    | some data =>
      dsimp only at hok ⊢
      have hdata := serialize_some _ _ _ hs.symm
      set sw := setWrite env d0 (getFilename cfg key) data with hsw
      clear_value sw
      obtain ⟨ok, isNew, d1⟩ := sw
      cases ok with
      | false => simp at hok
      | true =>
        have hrd : readFile d1 (getFilename cfg key) = some data := by
          have h2 := setWrite_true_readFile env d0 (getFilename cfg key) data
            (by rw [← hsw])
          rwa [← hsw] at h2
        dsimp only at hok ⊢
        cases isNew with
        | false =>
          rw [if_neg (by simp)] at hok ⊢
          rw [hrd, hdata]
        | true =>
          rw [if_pos (by simp)] at hok ⊢
          set up := updateCountDelta cfg env now d1 1 with hup
          clear_value up
          cases up with
          | none => simp at hok
          | some d2 =>
            dsimp only at hok ⊢
            rw [updateCountDelta_readFile_other cfg env now d1 1 _ hne hnet d2
              hup.symm, hrd, hdata]




theorem setOp_mgmt_eq_setCount (cfg : Config) (env : Env) (now : Nat) (d : FsDir)
    (n : Int) (timeout : Option Nat) :
    setOp cfg env now d fsCountFile (Val.int n) timeout true =
      (some (setCount cfg env d n).1, (setCount cfg env d n).2) := by
  simp only [setOp, setCount]
  norm_num
  have ht : normalizeTimeout cfg now (some 0) = 0 := rfl
  rw [ht]
  show (match setWrite env d (countName cfg) (Bytes.record 0 (Val.int n)) with
    | (false, _, d1) => (some false, d1)
    | (true, isNew, d1) =>
      if ¬ true = true ∧ isNew = true then
        match updateCountDelta cfg env now d1 1 with
        | none => (none, d1)
        | some d2 => (some true, d2)
      else (some true, d1)) = _
  set sw := setWrite env d (countName cfg) (Bytes.record 0 (Val.int n)) with hsw
  clear_value sw
  obtain ⟨ok, isNew, d1⟩ := sw
  cases ok with
  | false => rfl
  | true => dsimp only; rw [if_neg (by simp)]

theorem getOp_of_live (cfg : Config) (env : Env) (now : Nat) (d : FsDir)
    (key : String) (e : Nat) (v : Val)
    (hgp : getPure env d (getFilename cfg key) = some (e, v))
    (hnx : ¬ (e ≠ 0 ∧ e < now)) :
    getOp cfg env now d key = (some v, d) := by
  simp only [getOp]
  rw [hgp]
  dsimp only
  rw [if_neg hnx]

theorem deleteOp_removes (cfg : Config) (env : Env) (now : Nat) (d : FsDir)
    (key : String) (hp : readFile d (getFilename cfg key) ≠ none)
    (hrm : env.removeFails (getFilename cfg key) = false)
    (hne : getFilename cfg key ≠ countName cfg)
    (hnet : getFilename cfg key ≠ countName cfg ++ tmpWriteSuffix) :
    readFile (deleteOp cfg env now d key).2 (getFilename cfg key) = none := by
  simp only [deleteOp]
  rw [if_neg (by simpa [Option.isNone_iff_eq_none] using hp),
    if_neg (by simp [hrm])]
  set up := updateCountDelta cfg env now (removeFile d (getFilename cfg key)) (-1)
    with hup
  clear_value up
  cases up with
  | none => exact readFile_removeFile_self _ _
  | some d2 =>
    dsimp only
    rw [updateCountDelta_readFile_other cfg env now _ (-1) _ hne hnet d2 hup.symm]
    exact readFile_removeFile_self _ _

theorem getOp_of_expired (cfg : Config) (env : Env) (now : Nat) (d : FsDir)
    (key : String) (e : Nat) (v : Val)
    (hgp : getPure env d (getFilename cfg key) = some (e, v))
    (hx : e ≠ 0 ∧ e < now)
    (hrm : env.removeFails (getFilename cfg key) = false)
    (hne : getFilename cfg key ≠ countName cfg)
    (hnet : getFilename cfg key ≠ countName cfg ++ tmpWriteSuffix) :
    (getOp cfg env now d key).1 = none ∧
    readFile (getOp cfg env now d key).2 (getFilename cfg key) = none := by
  simp only [getOp]
  rw [hgp]
  dsimp only
  rw [if_pos hx]
  exact ⟨rfl, deleteOp_removes cfg env now d key
    (getPure_some_readFile env d _ _ hgp) hrm hne hnet⟩

theorem setOp_isSome (cfg : Config) (env : Env) (now : Nat) (d : FsDir)
    (key : String) (v : Val) (timeout : Option Nat)
    (hv : v ≠ Val.bad) (hok : counterIntOK cfg env d)
    (hne : countName cfg ≠ getFilename cfg key)
    (hnet : countName cfg ≠ getFilename cfg key ++ tmpWriteSuffix) :
    ((setOp cfg env now d key v timeout false).1).isSome := by
  unfold setOp
  simp only [if_neg (by simp : ¬ false = true)]
  set pr := prune cfg env now d with hpr
  clear_value pr
  cases pr with
  | none =>
    exfalso
    have hh := prune_isSome cfg env now d hok
    rw [← hpr] at hh
    cases hh
  | some d0 =>
    dsimp only
    have hok0 : counterIntOK cfg env d0 := prune_counterIntOK cfg env now d d0 hok hpr.symm
    rw [serialize_of_ne_bad _ _ hv]
    dsimp only
    set sw := setWrite env d0 (getFilename cfg key)
      (Bytes.record (normalizeTimeout cfg now timeout) v) with hsw
    clear_value sw
    obtain ⟨ok, isNew, d1⟩ := sw
    cases ok with
    | false => simp
    | true =>
      dsimp only
      cases isNew with
      | false => rw [if_neg (by simp)]; simp
      | true =>
        rw [if_pos (by simp)]
        have hok1 : counterIntOK cfg env d1 := by
          refine counterIntOK_congr cfg env d1 d0 ?_ hok0
          have hpre := setWrite_readFile_other env d0 (getFilename cfg key)
            (Bytes.record (normalizeTimeout cfg now timeout) v) (countName cfg) hne hnet
          rwa [← hsw] at hpre
        set up := updateCountDelta cfg env now d1 1 with hup
        clear_value up
        cases up with
        | none =>
          exfalso
          have hh := updateCountDelta_isSome cfg env now d1 1 hok1
          rw [← hup] at hh
          cases hh
        | some d2 => simp

theorem clearLoop_success (env : Env) (names : List String) (d : FsDir)
    (hnd : names.Nodup)
    (hpres : ∀ fn ∈ names, readFile d fn ≠ none)
    (hrm : ∀ fn ∈ names, env.removeFails fn = false) :
    (clearLoop env d names).1 = true ∧
    (∀ fn ∈ names, readFile (clearLoop env d names).2 fn = none) ∧
    (∀ g, g ∉ names → readFile (clearLoop env d names).2 g = readFile d g) := by
  induction names generalizing d with
  | nil => exact ⟨rfl, by simp, fun g _ => rfl⟩
  | cons fn rest ih =>
    obtain ⟨hfn, hndr⟩ := List.nodup_cons.mp hnd
    have hp := hpres fn (List.mem_cons_self fn rest)
    have hr := hrm fn (List.mem_cons_self fn rest)
    have hstep : clearLoop env d (fn :: rest) = clearLoop env (removeFile d fn) rest := by
      show (if (readFile d fn).isNone then (false, d)
        else if env.removeFails fn then (false, d)
        else clearLoop env (removeFile d fn) rest) = _
      rw [if_neg (by simpa [Option.isNone_iff_eq_none] using hp),
        if_neg (by simp [hr])]
    have ihh := ih (removeFile d fn) hndr
      (fun g hg => by
        rw [readFile_removeFile_ne d fn g (fun hh => hfn (hh ▸ hg))]
        exact hpres g (List.mem_cons_of_mem fn hg))
      (fun g hg => hrm g (List.mem_cons_of_mem fn hg))
    rw [hstep]
    refine ⟨ihh.1, ?_, ?_⟩
    · intro g hg
      rcases List.mem_cons.mp hg with hgf | hgr
      · rw [hgf, ihh.2.2 fn hfn]
        exact readFile_removeFile_self d fn
      · exact ihh.2.1 g hgr
    · intro g hg
      have hgf : g ≠ fn := fun hh => hg (hh ▸ List.mem_cons_self fn rest)
      have hgr : g ∉ rest := fun hh => hg (List.mem_cons_of_mem fn hh)
      rw [ihh.2.2 g hgr]
      exact readFile_removeFile_ne d fn g hgf

theorem clearLoop_fail (env : Env) (l1 : List String) (fn : String) (l2 : List String)
    (d : FsDir) (hnd : (l1 ++ fn :: l2).Nodup)
    (hpres : ∀ g ∈ l1 ++ fn :: l2, readFile d g ≠ none)
    (hrm1 : ∀ g ∈ l1, env.removeFails g = false)
    (hrmf : env.removeFails fn = true) :
    (clearLoop env d (l1 ++ fn :: l2)).1 = false ∧
    (∀ g ∈ l1, readFile (clearLoop env d (l1 ++ fn :: l2)).2 g = none) ∧
    (∀ g, g ∉ l1 → readFile (clearLoop env d (l1 ++ fn :: l2)).2 g = readFile d g) := by
  induction l1 generalizing d with
  | nil =>
    have hp := hpres fn (by simp)
    have hstep : clearLoop env d ([] ++ fn :: l2) = (false, d) := by
      show (if (readFile d fn).isNone then (false, d)
        else if env.removeFails fn then (false, d)
        else clearLoop env (removeFile d fn) l2) = _
      rw [if_neg (by simpa [Option.isNone_iff_eq_none] using hp), if_pos hrmf]
    rw [hstep]
    exact ⟨rfl, by simp, fun g _ => rfl⟩
  | cons a rest ih =>
    have hnd' := hnd
    rw [List.cons_append, List.nodup_cons] at hnd'
    obtain ⟨ha, hndr⟩ := hnd'
    have hp := hpres a (by simp)
    have hr := hrm1 a (List.mem_cons_self a rest)
    have hstep : clearLoop env d ((a :: rest) ++ fn :: l2) =
        clearLoop env (removeFile d a) (rest ++ fn :: l2) := by
      show (if (readFile d a).isNone then (false, d)
        else if env.removeFails a then (false, d)
        else clearLoop env (removeFile d a) (rest ++ fn :: l2)) = _
      rw [if_neg (by simpa [Option.isNone_iff_eq_none] using hp),
        if_neg (by simp [hr])]
    have ihh := ih (removeFile d a) hndr
      (fun g hg => by
        rw [readFile_removeFile_ne d a g (fun hh => ha (hh ▸ hg))]
        exact hpres g (by simp [List.mem_append] at hg ⊢; tauto))
      (fun g hg => hrm1 g (List.mem_cons_of_mem a hg))
    rw [hstep]
    refine ⟨ihh.1, ?_, ?_⟩
    · intro g hg
      rcases List.mem_cons.mp hg with hgf | hgr
      · rw [hgf]
        rw [ihh.2.2 a (fun hh => ha (List.mem_append_left _ hh))]
        exact readFile_removeFile_self d a
      · exact ihh.2.1 g hgr
    · intro g hg
      have hgf : g ≠ a := fun hh => hg (hh ▸ List.mem_cons_self a rest)
      have hgr : g ∉ rest := fun hh => hg (List.mem_cons_of_mem a hh)
      rw [ihh.2.2 g hgr]
      exact readFile_removeFile_ne d a g hgf

/-- A concrete stand-in for the pluggable hex-digest function, injective on
the keys used in the concrete scenarios below. -/
def testHash (k : String) : String := "h" ++ k

/-- A concrete configuration for the concrete scenarios below. -/
def testCfg : Config := { hashName := testHash, threshold := 5, defaultTimeout := 300 }

/-! ## Concrete fixtures for counterexamples and witnesses -/

/-- Environment where only the write of the counter's temp file fails
(a transient disk-full during counter maintenance). -/
def envCtrTmpFail : Env :=
  { envOK with writeFails := fun fn => fn == countName testCfg ++ tmpWriteSuffix }

/-- Environment where removing the backing file of key `k1` fails
(e.g. a permission error on that one file). -/
def envRmK1Fail : Env :=
  { envOK with removeFails := fun fn => fn == testHash "k1" }

/-- A freshly initialised cache directory: only the counter entry, count 0. -/
def freshDir : FsDir := [(countName testCfg, Bytes.record 0 (Val.int 0))]

theorem setWrite_writeFails (env : Env) (d : FsDir) (fn : String) (data : Bytes)
    (h : env.writeFails (fn ++ tmpWriteSuffix) = true) :
    setWrite env d fn data = (false, false, d) := by
  simp [setWrite, h]

/-- Environment where the replace step fails on the backing file of key
`k1` (e.g. a transient I/O error on `os.replace`). -/
def envRpK1Fail : Env :=
  { envOK with replaceFails := fun fn => fn == testHash "k1" }

theorem setWrite_fst_false_of_replaceFails (env : Env) (d : FsDir) (fn : String)
    (data : Bytes) (h : env.replaceFails fn = true) :
    (setWrite env d fn data).1 = false := by
  simp only [setWrite]
  split
  · rfl
  · split
    · rfl
    · split
      · rfl
      · simp_all

theorem setWrite_fst_false_of_chmodFails (env : Env) (d : FsDir) (fn : String)
    (data : Bytes) (h : env.chmodFails fn = true) :
    (setWrite env d fn data).1 = false := by
  simp only [setWrite]
  split
  · rfl
  · split
    · rfl
    · split
      · rfl
      · split
        · rfl
        · simp_all

theorem setWrite_fst_false_of_removeFails (env : Env) (d : FsDir) (fn : String)
    (data : Bytes) (h : env.removeFails fn = true)
    (hex : readFile d fn ≠ none) : (setWrite env d fn data).1 = false := by
  simp only [setWrite]
  split
  · rfl
  · split
    · rfl
    · rename_i hcond
      exfalso
      apply hcond
      constructor
      · rw [readFile_writeFile_ne d (fn ++ tmpWriteSuffix) fn data
          (Ne.symm (tmp_ne_self fn))]
        simp [Option.isNone_iff_eq_none, hex]
      · exact h

/-- Whenever the write block of a non-management `set` fails (its `try`
block returns early with `False`), `set` returns `some false`: no later
code runs, so nothing can raise past the caught failure. -/
theorem setOp_false_of_setWrite_false (cfg : Config) (env : Env) (now : Nat)
    (d : FsDir) (key : String) (v : Val) (timeout : Option Nat) (d0 : FsDir)
    (hpr : prune cfg env now d = some d0) (hv : v ≠ Val.bad)
    (hswf : (setWrite env d0 (getFilename cfg key)
      (Bytes.record (normalizeTimeout cfg now timeout) v)).1 = false) :
    (setOp cfg env now d key v timeout false).1 = some false := by
  unfold setOp
  simp only [if_neg (by simp : ¬ false = true)]
  rw [hpr]
  dsimp only
  rw [serialize_of_ne_bad _ _ hv]
  dsimp only
  set sw := setWrite env d0 (getFilename cfg key)
    (Bytes.record (normalizeTimeout cfg now timeout) v) with hsw
  clear_value sw
  obtain ⟨ok, isNew, d1⟩ := sw
  cases ok with
  | true => exact Bool.noConfusion hswf
  | false => rfl

/-- C1 (counterexample): `set` can raise to the caller, on two paths.
First, `_serialize` runs before the `try` block (line 193), so an encode
error on the value propagates instead of being returned as `False`.
Second, with no fault injected at all: the public `set` on the sentinel key
(the C9 exposure) stores a string in the counter record, and the next `set`
on an ordinary key with an encodable value then raises `TypeError` at the
counter comparison `self._file_count > self._threshold` (line 141), which
also runs outside the `try` block. -/
theorem claim1_counterexample :
    (setOp testCfg envOK 0 [] "k1" Val.bad none false).1 = none ∧
    ((setOp testCfg envOK 10 freshDir "__wz_cache_count" (Val.str "abc") none
        false).1 = some true ∧
      (setOp testCfg envOK 10
        (setOp testCfg envOK 10 freshDir "__wz_cache_count" (Val.str "abc") none
          false).2 "k2" (Val.int 1) none false).1 = none) := by
  decide

/-- C1 (amended): provided the value is one the serializer can encode, the
key's computed filename is not the reserved counter filename or its temp
sibling, and any stored counter record holds an integer — the state every
code path of the class itself maintains, violated only through the C9
sentinel exposure — `set` returns a success/failure boolean and never
raises; and every OS failure inside the write block is caught and reported
as a `false` return: a failing temp-file write, a failing replace, and a
failing chmod each force `some false`, and so does a failing pre-removal
whenever the target file existed to be removed. -/
theorem claim1_amended_set_returns_bool (cfg : Config) (env : Env) (now : Nat)
    (d : FsDir) (key : String) (v : Val) (timeout : Option Nat)
    (hv : v ≠ Val.bad) (hcnt : counterIntOK cfg env d)
    (hne : countName cfg ≠ getFilename cfg key)
    (hnet : countName cfg ≠ getFilename cfg key ++ tmpWriteSuffix) :
    ((setOp cfg env now d key v timeout false).1).isSome ∧
    (env.writeFails (getFilename cfg key ++ tmpWriteSuffix) = true →
      (setOp cfg env now d key v timeout false).1 = some false) ∧
    (env.replaceFails (getFilename cfg key) = true →
      (setOp cfg env now d key v timeout false).1 = some false) ∧
    (env.chmodFails (getFilename cfg key) = true →
      (setOp cfg env now d key v timeout false).1 = some false) ∧
    (env.removeFails (getFilename cfg key) = true →
      ∀ d0, prune cfg env now d = some d0 →
        readFile d0 (getFilename cfg key) ≠ none →
        (setOp cfg env now d key v timeout false).1 = some false) := by
  obtain ⟨d0, hpr⟩ := Option.isSome_iff_exists.mp (prune_isSome cfg env now d hcnt)
  refine ⟨setOp_isSome cfg env now d key v timeout hv hcnt hne hnet,
    fun hw => ?_, fun hrp => ?_, fun hcm => ?_, fun hrm d0' hpr' hex => ?_⟩
  · exact setOp_false_of_setWrite_false cfg env now d key v timeout d0 hpr hv
      (by rw [setWrite_writeFails env d0 _ _ hw])
  · exact setOp_false_of_setWrite_false cfg env now d key v timeout d0 hpr hv
      (setWrite_fst_false_of_replaceFails env d0 _ _ hrp)
  · exact setOp_false_of_setWrite_false cfg env now d key v timeout d0 hpr hv
      (setWrite_fst_false_of_chmodFails env d0 _ _ hcm)
  · exact setOp_false_of_setWrite_false cfg env now d key v timeout d0' hpr' hv
      (setWrite_fst_false_of_removeFails env d0' _ _ hrm hex)

/-- C1 (witness): a fault-free `set` of an encodable value on an ordinary
key returns a boolean, and the same `set` under a failing replace returns
`some false`. -/
theorem claim1_witness :
    ((setOp testCfg envOK 0 freshDir "k1" (Val.int 5) none false).1).isSome ∧
    (setOp testCfg envRpK1Fail 0 freshDir "k1" (Val.int 5) none false).1 =
      some false :=
  ⟨(claim1_amended_set_returns_bool testCfg envOK 0 freshDir "k1" (Val.int 5) none
      (by decide) (counterIntOK_of_int testCfg envOK freshDir 0 0 (by decide))
      (by decide) (by decide)).1,
   (claim1_amended_set_returns_bool testCfg envRpK1Fail 0 freshDir "k1"
      (Val.int 5) none (by decide)
      (counterIntOK_of_int testCfg envRpK1Fail freshDir 0 0 (by decide))
      (by decide) (by decide)).2.2.1 (by decide)⟩

/-- C2 (code bug): the temp file suffix written by `set` is `".__tmp"`
(line 192) but `_list_dir` filters only `_fs_transaction_suffix`
(`".__wz_cache"`, lines 107-117), so a leftover temp file IS returned by the
listing used for enumeration, counting, and eviction.  Here an overwrite of
key `k1` fails at the pre-removal step, `set` returns `False`, and the orphan
temp file then shows up in `_list_dir`. -/
theorem claim2_temp_file_visible :
    (setOp testCfg envRmK1Fail 10
        [(testHash "k1", Bytes.record 0 (Val.int 1)), (countName testCfg, Bytes.record 0 (Val.int 1))]
        "k1" (Val.int 2) none false).1 = some false ∧
    (testHash "k1" ++ tmpWriteSuffix) ∈ listDir testCfg
      (setOp testCfg envRmK1Fail 10
        [(testHash "k1", Bytes.record 0 (Val.int 1)), (countName testCfg, Bytes.record 0 (Val.int 1))]
        "k1" (Val.int 2) none false).2 ∧
    endsWithStr (testHash "k1" ++ tmpWriteSuffix) fsTransactionSuffix = false := by
  decide

/-- C9 (counterexample): the reserved counter IS reachable through the public
surface: a caller-supplied key equal to the sentinel string
`"__wz_cache_count"` hashes to the counter's filename, and `get` on it returns
the stored count.  No guard exists in `get`/`set`/`delete`. -/
theorem claim9_counterexample :
    getFilename testCfg "__wz_cache_count" = countName testCfg ∧
    (getOp testCfg envOK 10 [(countName testCfg, Bytes.record 0 (Val.int 7))]
      "__wz_cache_count").1 = some (Val.int 7) := by
  decide

/-- C9 (amended): the public surface has no guard for the reserved sentinel:
the filename is a pure function of the key, so the caller key equal to
`_fs_count_file` maps to the counter's file, and public `get` on that key
reads the counter entry. -/
theorem claim9_amended_no_guard (cfg : Config) (env : Env) (now : Nat)
    (d : FsDir) (n : Int)
    (h : getPure env d (countName cfg) = some (0, Val.int n)) :
    getFilename cfg fsCountFile = countName cfg ∧
    (getOp cfg env now d fsCountFile).1 = some (Val.int n) := by
  refine ⟨rfl, ?_⟩
  have hh := getOp_of_live cfg env now d fsCountFile 0 (Val.int n) h (by simp)
  rw [hh]

/-- C9 (witness). -/
theorem claim9_witness :
    (getOp testCfg envOK 10 [(countName testCfg, Bytes.record 0 (Val.int 7))]
      fsCountFile).1 = some (Val.int 7) :=
  (claim9_amended_no_guard testCfg envOK 10
    [(countName testCfg, Bytes.record 0 (Val.int 7))] 7 (by decide)).2

/-- C10: every management write of the counter (`set` with
`mgmt_element=True`, as performed by `_update_count`) forces the stored
timeout to 0 whatever timeout argument or default TTL is configured, so the
persisted counter record always has expiry 0; and reading a 0-expiry counter
(`_file_count`) never takes the expiry branch at any time. -/
theorem claim10_counter_timeout_zero (cfg : Config) (env : Env) (now : Nat)
    (d : FsDir) (n : Int) (timeout : Option Nat)
    (hwp : writePathOK env (countName cfg)) :
    (setOp cfg env now d fsCountFile (Val.int n) timeout true).1 = some true ∧
    readFile (setOp cfg env now d fsCountFile (Val.int n) timeout true).2
      (countName cfg) = some (Bytes.record 0 (Val.int n)) ∧
    (∀ now2, readFile d (countName cfg) = some (Bytes.record 0 (Val.int n)) →
      env.readFails (countName cfg) = false →
      fileCountRaw cfg env now2 d = some (n, d)) := by
  rw [setOp_mgmt_eq_setCount]
  refine ⟨by rw [setCount_fst cfg env d n hwp], setCount_readFile_self cfg env d n hwp,
    fun now2 hrd hrf => ?_⟩
  exact fileCountRaw_of_counter_zero cfg env now2 d n
    (by simp [getPure, hrf, hrd, deserialize])

/-- C10 (witness). -/
theorem claim10_witness :
    (setOp testCfg envOK 99 freshDir fsCountFile (Val.int 3) (some 60) true).1 = some true ∧
    readFile (setOp testCfg envOK 99 freshDir fsCountFile (Val.int 3) (some 60) true).2
      (countName testCfg) = some (Bytes.record 0 (Val.int 3)) := by
  have hh := claim10_counter_timeout_zero testCfg envOK 99 freshDir 3 (some 60)
    (by refine ⟨rfl, rfl, rfl, rfl⟩)
  exact ⟨hh.1, hh.2.1⟩

theorem normalizeTimeout_not_expired_now (cfg : Config) (now : Nat)
    (timeout : Option Nat) :
    ¬ (normalizeTimeout cfg now timeout ≠ 0 ∧ normalizeTimeout cfg now timeout < now) := by
  unfold normalizeTimeout
  by_cases h : baseNormalizeTimeout cfg timeout ≠ 0
  · rw [if_pos h]
    rintro ⟨-, hlt⟩
    omega
  · rw [if_neg h]
    rintro ⟨hne, -⟩
    exact h hne

/-- C3 (counterexample): when `set` overwrites an existing key, the write
sequence passes through a state in which the target file is absent: the
pre-removal of the old target (lines 198-200) is unconditional, not a
platform fallback, so between `os.remove` and `os.replace` a concurrent
reader finds no file. -/
theorem claim3_counterexample :
    readFile [("f", Bytes.record 0 (Val.int 1))] "f" ≠ none ∧
    ∃ s ∈ setWriteStates [("f", Bytes.record 0 (Val.int 1))] "f"
      (Bytes.record 0 (Val.int 2)),
      readFile s "f" = none := by
  decide

/-- C3 (amended): during `set`'s write sequence the target file never holds
partial or foreign data: every intermediate state shows the complete old
content, no file at all (the unconditional pre-removal window), or the
complete new record.  Partial content can exist only in the temp sibling,
never under the target filename. -/
theorem claim3_amended_no_partial_target (d : FsDir) (filename : String)
    (data : Bytes) (s : FsDir) (hs : s ∈ setWriteStates d filename data) :
    readFile s filename = readFile d filename ∨ readFile s filename = none ∨
    readFile s filename = some data := by
  have htmp : filename ≠ filename ++ tmpWriteSuffix := Ne.symm (tmp_ne_self filename)
  have h1 : ∀ b, readFile (writeFile d (filename ++ tmpWriteSuffix) b) filename =
      readFile d filename := fun b => readFile_writeFile_ne _ _ _ _ htmp
  simp only [setWriteStates] at hs
  split at hs
  · simp only [List.mem_cons, List.not_mem_nil, or_false] at hs
    rcases hs with rfl | rfl | rfl | rfl
    · exact Or.inl rfl
    · exact Or.inl (h1 _)
    · exact Or.inl (h1 _)
    · exact Or.inr (Or.inr (readFile_writeFile_self _ _ _))
  · simp only [List.mem_cons, List.not_mem_nil, or_false] at hs
    rcases hs with rfl | rfl | rfl | rfl | rfl
    · exact Or.inl rfl
    · exact Or.inl (h1 _)
    · exact Or.inl (h1 _)
    · exact Or.inr (Or.inl (readFile_removeFile_self _ _))
    · exact Or.inr (Or.inr (readFile_writeFile_self _ _ _))

/-- C3 (witness). -/
theorem claim3_witness :
    readFile ((setWriteStates [("f", Bytes.record 0 (Val.int 1))] "f"
        (Bytes.record 0 (Val.int 2))).getLast!) "f" =
        readFile [("f", Bytes.record 0 (Val.int 1))] "f" ∨
    readFile ((setWriteStates [("f", Bytes.record 0 (Val.int 1))] "f"
        (Bytes.record 0 (Val.int 2))).getLast!) "f" = none ∨
    readFile ((setWriteStates [("f", Bytes.record 0 (Val.int 1))] "f"
        (Bytes.record 0 (Val.int 2))).getLast!) "f" =
        some (Bytes.record 0 (Val.int 2)) :=
  claim3_amended_no_partial_target [("f", Bytes.record 0 (Val.int 1))] "f"
    (Bytes.record 0 (Val.int 2)) _ (by decide)

/-- C4 (counterexample): the round-trip fails for the caller key equal to the
reserved sentinel string when the counter file is absent (here: the caller
deleted that key while a transient fault kept the counter from being
rewritten).  The subsequent `set` succeeds, but its own count bookkeeping
immediately overwrites the just-written file — the filenames coincide — so
the immediate `get` returns the count 43, not the stored value 42. -/
theorem claim4_counterexample :
    (deleteOp testCfg envCtrTmpFail 10 freshDir "__wz_cache_count").1 = true ∧
    ((setOp testCfg envOK 10 (deleteOp testCfg envCtrTmpFail 10 freshDir "__wz_cache_count").2
        "__wz_cache_count" (Val.int 42) none false).1 = some true ∧
      (getOp testCfg envOK 10 (setOp testCfg envOK 10
          (deleteOp testCfg envCtrTmpFail 10 freshDir "__wz_cache_count").2
          "__wz_cache_count" (Val.int 42) none false).2 "__wz_cache_count").1 =
        some (Val.int 43)) := by
  decide

/-- C4 (amended): for every key whose filename does not collide with the
counter's filename or its temp sibling, a successful `set(k, v)` followed by
`get(k)` before the entry's expiry (with the backing file readable) returns
`v`. -/
theorem claim4_amended_roundtrip (cfg : Config) (env : Env) (now now2 : Nat)
    (d : FsDir) (key : String) (v : Val) (timeout : Option Nat)
    (hok : (setOp cfg env now d key v timeout false).1 = some true)
    (hne : getFilename cfg key ≠ countName cfg)
    (hnet : getFilename cfg key ≠ countName cfg ++ tmpWriteSuffix)
    (hrf : env.readFails (getFilename cfg key) = false)
    (hexp : normalizeTimeout cfg now timeout ≠ 0 →
      now2 ≤ normalizeTimeout cfg now timeout) :
    (getOp cfg env now2 (setOp cfg env now d key v timeout false).2 key).1 = some v := by
  have hrd := setOp_success_readFile cfg env now d key v timeout hne hnet hok
  have hgp : getPure env (setOp cfg env now d key v timeout false).2
      (getFilename cfg key) = some (normalizeTimeout cfg now timeout, v) := by
    simp [getPure, hrf, hrd, deserialize]
  have hnx : ¬ (normalizeTimeout cfg now timeout ≠ 0 ∧
      normalizeTimeout cfg now timeout < now2) := by
    rintro ⟨hz, hlt⟩
    exact absurd hlt (by have := hexp hz; omega)
  rw [getOp_of_live cfg env now2 _ key _ v hgp hnx]

/-- C4 (witness). -/
theorem claim4_witness :
    (setOp testCfg envOK 10 freshDir "k1" (Val.int 5) none false).1 = some true ∧
    (getOp testCfg envOK 10 (setOp testCfg envOK 10 freshDir "k1"
      (Val.int 5) none false).2 "k1").1 = some (Val.int 5) :=
  ⟨by decide, claim4_amended_roundtrip testCfg envOK 10 10 freshDir "k1" (Val.int 5)
    none (by decide) (by decide) (by decide) (by decide) (by decide)⟩

/-- C6 (counterexample): "get deletes the backing file and returns no value"
fails for the caller key equal to the sentinel: the expired counter entry is
deleted, but the deletion's own count bookkeeping immediately recreates the
same file (as the new counter record), so the backing file is present again
after `get`. -/
theorem claim6_counterexample :
    (getOp testCfg envOK 10 [(countName testCfg, Bytes.record 5 (Val.int 3))]
      "__wz_cache_count").1 = none ∧
    readFile (getOp testCfg envOK 10 [(countName testCfg, Bytes.record 5 (Val.int 3))]
      "__wz_cache_count").2 (getFilename testCfg "__wz_cache_count") ≠ none := by
  decide

/-- C6 (amended): for every key whose filename does not collide with the
counter's filename or its temp sibling and whose backing file decodes to
`(e, v)`: if `e ≠ 0` and `e < now`, `get` deletes the backing file and
returns no value; otherwise it returns `v` and leaves the state unchanged;
and a timeout argument of 0 normalizes to stored expiry 0 ("never expires"),
so by the second part such an entry is retrievable at every time. -/
theorem claim6_amended_get_expiry (cfg : Config) (env : Env) (now : Nat)
    (d : FsDir) (key : String) (e : Nat) (v : Val)
    (hgp : getPure env d (getFilename cfg key) = some (e, v))
    (hrm : env.removeFails (getFilename cfg key) = false)
    (hne : getFilename cfg key ≠ countName cfg)
    (hnet : getFilename cfg key ≠ countName cfg ++ tmpWriteSuffix) :
    (e ≠ 0 ∧ e < now →
      (getOp cfg env now d key).1 = none ∧
      readFile (getOp cfg env now d key).2 (getFilename cfg key) = none) ∧
    (¬ (e ≠ 0 ∧ e < now) → getOp cfg env now d key = (some v, d)) ∧
    normalizeTimeout cfg now (some 0) = 0 :=
  ⟨fun hx => getOp_of_expired cfg env now d key e v hgp hx hrm hne hnet,
   fun hnx => getOp_of_live cfg env now d key e v hgp hnx,
   rfl⟩

/-- C6 (witness): a live entry at `now = 10` with expiry 20 is returned; the
same entry at `now = 30` is expired, deleted, and not returned; an expiry-0
entry is returned at an arbitrarily late time. -/
theorem claim6_witness :
    ((getOp testCfg envOK 30 [(testHash "k1", Bytes.record 20 (Val.int 5)), (countName testCfg, Bytes.record 0 (Val.int 1))] "k1").1 = none ∧
      readFile (getOp testCfg envOK 30 [(testHash "k1", Bytes.record 20 (Val.int 5)), (countName testCfg, Bytes.record 0 (Val.int 1))] "k1").2
        (getFilename testCfg "k1") = none) ∧
    getOp testCfg envOK 999999 [(testHash "k2", Bytes.record 0 (Val.int 7))] "k2" =
      (some (Val.int 7), [(testHash "k2", Bytes.record 0 (Val.int 7))]) :=
  ⟨(claim6_amended_get_expiry testCfg envOK 30
      [(testHash "k1", Bytes.record 20 (Val.int 5)), (countName testCfg, Bytes.record 0 (Val.int 1))]
      "k1" 20 (Val.int 5) (by decide) (by decide) (by decide) (by decide)).1
      (by decide),
   (claim6_amended_get_expiry testCfg envOK 999999
      [(testHash "k2", Bytes.record 0 (Val.int 7))] "k2" 0 (Val.int 7)
      (by decide) (by decide) (by decide) (by decide)).2.1 (by decide)⟩

/-- C7 (counterexample): `add` semantics fail for the caller key equal to the
sentinel when the counter file is absent: the first `add` succeeds, the
second fails as claimed, but `get` then yields the count (8) rather than the
first value (7), because the success-path bookkeeping of the first `add`
overwrote the entry. -/
theorem claim7_counterexample :
    (addOp testCfg envOK 10 (deleteOp testCfg envCtrTmpFail 10 freshDir "__wz_cache_count").2
      "__wz_cache_count" (Val.int 7) none).1 = some true ∧
    (addOp testCfg envOK 10 (addOp testCfg envOK 10
        (deleteOp testCfg envCtrTmpFail 10 freshDir "__wz_cache_count").2
        "__wz_cache_count" (Val.int 7) none).2 "__wz_cache_count" (Val.int 8) none).1 =
      some false ∧
    (getOp testCfg envOK 10 (addOp testCfg envOK 10
        (deleteOp testCfg envCtrTmpFail 10 freshDir "__wz_cache_count").2
        "__wz_cache_count" (Val.int 7) none).2 "__wz_cache_count").1 =
      some (Val.int 8) := by
  decide

/-- C7 (amended): for every key whose filename does not collide with the
counter's filename or its temp sibling, after a successful `add(k, v1)` an
immediately subsequent `add(k, v2)` returns failure and `get(k)` still
yields `v1`. -/
theorem claim7_amended_add_once (cfg : Config) (env : Env) (now : Nat)
    (d : FsDir) (key : String) (v1 v2 : Val) (t1 t2 : Option Nat)
    (hne : getFilename cfg key ≠ countName cfg)
    (hnet : getFilename cfg key ≠ countName cfg ++ tmpWriteSuffix)
    (hrf : env.readFails (getFilename cfg key) = false)
    (h1 : (addOp cfg env now d key v1 t1).1 = some true) :
    (addOp cfg env now (addOp cfg env now d key v1 t1).2 key v2 t2).1 = some false ∧
    (getOp cfg env now (addOp cfg env now d key v1 t1).2 key).1 = some v1 := by
  have habs : readFile d (getFilename cfg key) = none := by
    by_contra hab
    have : (addOp cfg env now d key v1 t1).1 = some false := by
      simp [addOp, Option.isSome_iff_ne_none.mpr hab]
    rw [this] at h1
    cases h1
  have hset : addOp cfg env now d key v1 t1 = setOp cfg env now d key v1 t1 false := by
    simp [addOp, habs]
  have hok : (setOp cfg env now d key v1 t1 false).1 = some true := by
    rw [← hset]; exact h1
  have hrd := setOp_success_readFile cfg env now d key v1 t1 hne hnet hok
  have hgp : getPure env (setOp cfg env now d key v1 t1 false).2
      (getFilename cfg key) = some (normalizeTimeout cfg now t1, v1) := by
    simp [getPure, hrf, hrd, deserialize]
  constructor
  · rw [hset]
    simp [addOp, Option.isSome_iff_ne_none.mpr (by rw [hrd]; simp :
      readFile (setOp cfg env now d key v1 t1 false).2 (getFilename cfg key) ≠ none)]
  · rw [hset, getOp_of_live cfg env now _ key _ v1 hgp
      (normalizeTimeout_not_expired_now cfg now t1)]

/-- C7 (witness). -/
theorem claim7_witness :
    (addOp testCfg envOK 10 (addOp testCfg envOK 10 freshDir "k1" (Val.int 5) none).2
      "k1" (Val.int 6) none).1 = some false ∧
    (getOp testCfg envOK 10 (addOp testCfg envOK 10 freshDir "k1" (Val.int 5) none).2
      "k1").1 = some (Val.int 5) :=
  claim7_amended_add_once testCfg envOK 10 freshDir "k1" (Val.int 5) (Val.int 6)
    none none (by decide) (by decide) (by decide) (by decide)

theorem listDir_nodup (cfg : Config) (d : FsDir)
    (h : (d.map (fun e => e.1)).Nodup) : (listDir cfg d).Nodup :=
  List.Nodup.filter _ h

/-- C5: the eviction sweep of `_prune`.  With an intact integer counter of
value `c0`: the sweep is skipped when the threshold is 0 or the count does
not exceed it; when it runs, the file at enumeration index `j` of the
listing is removed exactly when its record decodes and either its stored
expiry is nonzero and `≤ now` or `j % 3 = 0` (unreadable or undecodable
entries are skipped), and afterwards the counter is rewritten with the
length of a fresh listing of the swept directory. -/
theorem claim5_prune_spec (cfg : Config) (env : Env) (now : Nat) (d : FsDir)
    (c0 : Int)
    (hdnd : (d.map (fun e => e.1)).Nodup)
    (hcnt : getPure env d (countName cfg) = some (0, Val.int c0))
    (hct : countName cfg ++ tmpWriteSuffix ∉ listDir cfg d)
    (hwp : writePathOK env (countName cfg))
    (hrm : ∀ fn, env.removeFails fn = false) :
    (cfg.threshold = 0 → prune cfg env now d = some d) ∧
    (c0 ≤ (cfg.threshold : Int) → prune cfg env now d = some d) ∧
    (cfg.threshold ≠ 0 → c0 > (cfg.threshold : Int) →
      prune cfg env now d =
        some (updateCountValue cfg env (pruneSweep env now d (listDir cfg d) 0)
          ((listDir cfg (pruneSweep env now d (listDir cfg d) 0)).length : Int)) ∧
      (∀ j (hj : j < (listDir cfg d).length),
        readFile (updateCountValue cfg env (pruneSweep env now d (listDir cfg d) 0)
            ((listDir cfg (pruneSweep env now d (listDir cfg d) 0)).length : Int))
            ((listDir cfg d).get ⟨j, hj⟩) =
          if shouldRemove (getPure env d ((listDir cfg d).get ⟨j, hj⟩)) j now then
            none
          else readFile d ((listDir cfg d).get ⟨j, hj⟩)) ∧
      readFile (updateCountValue cfg env (pruneSweep env now d (listDir cfg d) 0)
          ((listDir cfg (pruneSweep env now d (listDir cfg d) 0)).length : Int))
          (countName cfg) =
        some (Bytes.record 0 (Val.int
          ((listDir cfg (pruneSweep env now d (listDir cfg d) 0)).length)))) := by
  have hfc := fileCountRaw_of_counter_zero cfg env now d c0 hcnt
  refine ⟨fun h0 => by simp [prune, h0], fun hle => ?_, fun h0 hbig => ?_⟩
  · unfold prune
    split
    · rfl
    · rw [hfc]
      dsimp only
      rw [if_pos (by omega)]
  · have hprune : prune cfg env now d =
        some (updateCountValue cfg env (pruneSweep env now d (listDir cfg d) 0)
          ((listDir cfg (pruneSweep env now d (listDir cfg d) 0)).length : Int)) := by
      unfold prune
      rw [if_neg h0, hfc]
      dsimp only
      rw [if_neg (by omega)]
    refine ⟨hprune, fun j hj => ?_, ?_⟩
    · have hmem : (listDir cfg d).get ⟨j, hj⟩ ∈ listDir cfg d :=
        (listDir cfg d).get_mem j hj
      have hne : (listDir cfg d).get ⟨j, hj⟩ ≠ countName cfg :=
        mem_listDir_ne_countName cfg d _ hmem
      have hnet : (listDir cfg d).get ⟨j, hj⟩ ≠ countName cfg ++ tmpWriteSuffix :=
        fun hh => hct (hh ▸ hmem)
      rw [updateCountValue_readFile_other cfg env _ _ _ hne hnet]
      have hsw := pruneSweep_spec env now d (listDir cfg d) 0
        (listDir_nodup cfg d hdnd) j hj
      rw [hsw, hrm ((listDir cfg d).get ⟨j, hj⟩)]
      simp only [Nat.zero_add, and_true]
    · exact updateCountValue_counter cfg env _ _ h0 hwp

/-- C5 (witness): threshold 2, counter 3; of the four listed entries,
index 0 is removed by the modulo rule, index 1 by expiry (5 ≤ 10), index 2
is corrupt and skipped, index 3 is removed by the modulo rule; the counter
is rewritten to the 1 surviving entry. -/
theorem claim5_witness :
    prune ⟨testHash, 2, 300⟩ envOK 10
        [(countName ⟨testHash, 2, 300⟩, Bytes.record 0 (Val.int 3)),
          ("ha", Bytes.record 0 (Val.int 1)), ("hb", Bytes.record 5 (Val.int 2)),
          ("hc", Bytes.junk), ("hd", Bytes.record 0 (Val.int 4))] =
      some (updateCountValue ⟨testHash, 2, 300⟩ envOK
        (pruneSweep envOK 10
          [(countName ⟨testHash, 2, 300⟩, Bytes.record 0 (Val.int 3)),
            ("ha", Bytes.record 0 (Val.int 1)), ("hb", Bytes.record 5 (Val.int 2)),
            ("hc", Bytes.junk), ("hd", Bytes.record 0 (Val.int 4))]
          (listDir ⟨testHash, 2, 300⟩
            [(countName ⟨testHash, 2, 300⟩, Bytes.record 0 (Val.int 3)),
              ("ha", Bytes.record 0 (Val.int 1)), ("hb", Bytes.record 5 (Val.int 2)),
              ("hc", Bytes.junk), ("hd", Bytes.record 0 (Val.int 4))]) 0)
        ((listDir ⟨testHash, 2, 300⟩
          (pruneSweep envOK 10
            [(countName ⟨testHash, 2, 300⟩, Bytes.record 0 (Val.int 3)),
              ("ha", Bytes.record 0 (Val.int 1)), ("hb", Bytes.record 5 (Val.int 2)),
              ("hc", Bytes.junk), ("hd", Bytes.record 0 (Val.int 4))]
            (listDir ⟨testHash, 2, 300⟩
              [(countName ⟨testHash, 2, 300⟩, Bytes.record 0 (Val.int 3)),
                ("ha", Bytes.record 0 (Val.int 1)), ("hb", Bytes.record 5 (Val.int 2)),
                ("hc", Bytes.junk), ("hd", Bytes.record 0 (Val.int 4))]) 0)).length : Int)) :=
  ((claim5_prune_spec ⟨testHash, 2, 300⟩ envOK 10
    [(countName ⟨testHash, 2, 300⟩, Bytes.record 0 (Val.int 3)),
      ("ha", Bytes.record 0 (Val.int 1)), ("hb", Bytes.record 5 (Val.int 2)),
      ("hc", Bytes.junk), ("hd", Bytes.record 0 (Val.int 4))] 3
    (by decide) (by decide) (by decide) ⟨rfl, rfl, rfl, rfl⟩
    (fun _ => rfl)).2.2 (by decide) (by decide)).1

theorem getOp_fst_of_absent (cfg : Config) (env : Env) (now : Nat) (d : FsDir)
    (key : String) (h : readFile d (getFilename cfg key) = none) :
    (getOp cfg env now d key).1 = none := by
  have hgp : getPure env d (getFilename cfg key) = none := by
    simp [getPure, h]
  simp [getOp, hgp]

/-- C8: `clear` semantics.  When every removal of the listed entries
succeeds, `clear` returns `true`, removes every listed entry, resets the
counter record to 0, and `get` subsequently reports no value for every
previously-set (non-sentinel) key.  When a removal fails partway, `clear`
stops there, returns `false`, keeps the failed entry and all later state
changes undone for it, leaves the earlier removals in place (no rollback),
and rewrites the counter with the length of a fresh listing of what
remains. -/
theorem claim8_clear_spec (cfg : Config) (env : Env) (d : FsDir)
    (hdnd : (d.map (fun e => e.1)).Nodup)
    (hct : countName cfg ++ tmpWriteSuffix ∉ listDir cfg d)
    (hwp : writePathOK env (countName cfg))
    (h0 : cfg.threshold ≠ 0) :
    ((∀ fn ∈ listDir cfg d, env.removeFails fn = false) →
      (clearOp cfg env d).1 = true ∧
      (∀ fn ∈ listDir cfg d, readFile (clearOp cfg env d).2 fn = none) ∧
      readFile (clearOp cfg env d).2 (countName cfg) =
        some (Bytes.record 0 (Val.int 0)) ∧
      (∀ key now, readFile d (getFilename cfg key) ≠ none →
        endsWithStr (getFilename cfg key) fsTransactionSuffix = false →
        getFilename cfg key ≠ countName cfg →
        (getOp cfg env now (clearOp cfg env d).2 key).1 = none)) ∧
    (∀ l1 fn l2, listDir cfg d = l1 ++ fn :: l2 →
      (∀ g ∈ l1, env.removeFails g = false) → env.removeFails fn = true →
      (clearOp cfg env d).1 = false ∧
      readFile (clearOp cfg env d).2 fn = readFile d fn ∧
      (∀ g ∈ l1, readFile (clearOp cfg env d).2 g = none) ∧
      readFile (clearOp cfg env d).2 (countName cfg) =
        some (Bytes.record 0 (Val.int
          ((listDir cfg (clearLoop env d (listDir cfg d)).2).length)))) := by
  have hnd := listDir_nodup cfg d hdnd
  have hpres : ∀ fn ∈ listDir cfg d, readFile d fn ≠ none :=
    fun fn hfn => readFile_isSome_of_mem_listDir cfg d fn hfn
  constructor
  · intro hsucc
    have hcl := clearLoop_success env (listDir cfg d) d hnd hpres hsucc
    have hpair : clearLoop env d (listDir cfg d) =
        (true, (clearLoop env d (listDir cfg d)).2) := by
      rw [← hcl.1]
    have hco : clearOp cfg env d =
        (true, updateCountValue cfg env (clearLoop env d (listDir cfg d)).2 0) := by
      unfold clearOp
      rw [hpair]
    have hread : ∀ fn ∈ listDir cfg d, readFile (clearOp cfg env d).2 fn = none := by
      intro fn hfn
      rw [hco]
      have hne := mem_listDir_ne_countName cfg d fn hfn
      have hnet : fn ≠ countName cfg ++ tmpWriteSuffix := fun hh => hct (hh ▸ hfn)
      rw [updateCountValue_readFile_other cfg env _ _ _ hne hnet]
      exact hcl.2.1 fn hfn
    refine ⟨by rw [hco], hread, ?_, ?_⟩
    · rw [hco]
      exact updateCountValue_counter cfg env _ _ h0 hwp
    · intro key now hk hsfx hkc
      have hmem : getFilename cfg key ∈ listDir cfg d :=
        mem_listDir_of cfg d _ ((not_iff_not.mpr (readFile_eq_none_iff d _)).mp
          (by simpa using hk) |> not_not.mp) hsfx hkc
      exact getOp_fst_of_absent cfg env now _ key (hread _ hmem)
  · intro l1 fn l2 hsplit hrm1 hrmf
    have hnd2 : (l1 ++ fn :: l2).Nodup := hsplit ▸ hnd
    have hpres2 : ∀ g ∈ l1 ++ fn :: l2, readFile d g ≠ none :=
      fun g hg => hpres g (hsplit ▸ hg)
    have hcl := clearLoop_fail env l1 fn l2 d hnd2 hpres2 hrm1 hrmf
    rw [← hsplit] at hcl
    have hpair : clearLoop env d (listDir cfg d) =
        (false, (clearLoop env d (listDir cfg d)).2) := by
      rw [← hcl.1]
    have hco : clearOp cfg env d =
        (false, updateCountValue cfg env (clearLoop env d (listDir cfg d)).2
          ((listDir cfg (clearLoop env d (listDir cfg d)).2).length : Int)) := by
      unfold clearOp
      rw [hpair]
    have hfnld : fn ∈ listDir cfg d := by
      rw [hsplit]
      exact List.mem_append_right l1 (List.mem_cons_self fn l2)
    have hfnl1 : fn ∉ l1 := by
      intro hh
      have := List.nodup_append.mp hnd2
      exact absurd (List.mem_cons_self fn l2) (this.2.2 hh)
    refine ⟨by rw [hco], ?_, ?_, ?_⟩
    · rw [hco]
      rw [updateCountValue_readFile_other cfg env _ _ _
        (mem_listDir_ne_countName cfg d fn hfnld) (fun hh => hct (hh ▸ hfnld))]
      exact hcl.2.2 fn hfnl1
    · intro g hg
      have hgld : g ∈ listDir cfg d := by
        rw [hsplit]
        exact List.mem_append_left _ hg
      rw [hco]
      rw [updateCountValue_readFile_other cfg env _ _ _
        (mem_listDir_ne_countName cfg d g hgld) (fun hh => hct (hh ▸ hgld))]
      exact hcl.2.1 g hg
    · rw [hco]
      exact updateCountValue_counter cfg env _ _ h0 hwp

/-- C8 (witness): directory with counter plus entries `ha`, `hb`; with no
faults, `clear` removes both, returns `true`, resets the counter record to
0, and `get` on key `a` afterwards reports no value. -/
theorem claim8_witness :
    (clearOp testCfg envOK
        [(countName testCfg, Bytes.record 0 (Val.int 2)),
          (testHash "a", Bytes.record 0 (Val.int 1)), (testHash "b", Bytes.junk)]).1 = true ∧
    readFile (clearOp testCfg envOK
        [(countName testCfg, Bytes.record 0 (Val.int 2)),
          (testHash "a", Bytes.record 0 (Val.int 1)), (testHash "b", Bytes.junk)]).2
      (countName testCfg) = some (Bytes.record 0 (Val.int 0)) ∧
    (getOp testCfg envOK 10 (clearOp testCfg envOK
        [(countName testCfg, Bytes.record 0 (Val.int 2)),
          (testHash "a", Bytes.record 0 (Val.int 1)), (testHash "b", Bytes.junk)]).2
      "a").1 = none := by
  have hh := (claim8_clear_spec testCfg envOK
    [(countName testCfg, Bytes.record 0 (Val.int 2)),
      (testHash "a", Bytes.record 0 (Val.int 1)), (testHash "b", Bytes.junk)]
    (by decide) (by decide) ⟨rfl, rfl, rfl, rfl⟩ (by decide)).1
    (fun fn _ => rfl)
  exact ⟨hh.1, hh.2.2.1, hh.2.2.2 "a" 10 (by decide) (by decide) (by decide)⟩

end FsCache
